import Mathlib

/-!
A verification development for the jaguar differential-drive robot driver.

The model covers, shallowly embedded from the C++ sources:

* src/ntcan_bridge.cc — the NTCAN transport wrapper: frame construction in
  NTCANBridge::send, the result-code handling of canOpen / canWrite /
  canRead, and the buffer discipline of NTCANBridge::recv;
* src/diff_drive.cc — the DiffDriveRobot controller and odometry
  estimator: drive, drive_raw, drive_spin, odom_update, and the
  constructor's configuration sequence;
* the start-of-frame / escape framing codec whose interface is declared
  in src/jaguar_bridge.h (kSOF, kESC, recv_byte, unpack_packet,
  encode_bytes).

The file is organised as one block of definitions followed by one block of
theorems.
-/

namespace Ntcan

/-- Model of the can::CANException error type (src/can_bridge.h): the
exception carries a message string that identifies the failure
condition. -/
structure CANException where
  msg : String
deriving DecidableEq

/-- The NTCAN driver result codes that src/ntcan_bridge.cc distinguishes.
The constructor `other` stands for any further code; the source maps every
such code to the default branch of its switch. -/
inductive NTCANResult
  | success
  | invalidDriver
  | invalidHardware
  | invalidFirmware
  | netNotFound
  | contrOffBus
  | contrWarn
  | txError
  | txTimeout
  | rxTimeout
  | other
deriving DecidableEq

/-- Result handling of canOpen in the NTCANBridge constructor
(src/ntcan_bridge.cc, lines 9-27): success falls through, every failure
code is thrown as a CANException with a condition-specific message. -/
def canOpen_result : NTCANResult → Except CANException Unit
  | .success => .ok ()
  | .invalidDriver => .error ⟨"Incompatible device driver and NTCAN versions."⟩
  | .invalidHardware => .error ⟨"Incompatible device driver and firmware versions."⟩
  | .invalidFirmware => .error ⟨"Incompatible device driver and firmware versions."⟩
  | .netNotFound => .error ⟨"Invalid network number."⟩
  | _ => .error ⟨"An unknown error has occurred."⟩

/-- Result handling of canWrite in NTCANBridge::send (src/ntcan_bridge.cc,
lines 50-64). -/
def canWrite_result : NTCANResult → Except CANException Unit
  | .success => .ok ()
  | .contrOffBus => .error ⟨"Too many CAN error frames have been received."⟩
  | .contrWarn => .error ⟨"Too many CAN error frames have been received."⟩
  | .txError => .error ⟨"Transmission timeout exceeded."⟩
  | .txTimeout => .error ⟨"Transmission timeout exceeded."⟩
  | _ => .error ⟨"An unknown error has occurred."⟩

/-- Result handling of canRead in NTCANBridge::recv (src/ntcan_bridge.cc,
lines 72-82). -/
def canRead_result : NTCANResult → Except CANException Unit
  | .success => .ok ()
  | .rxTimeout => .error ⟨"Receive timeout exceeded."⟩
  | _ => .error ⟨"An unknown error has occurred."⟩

/-- The NTCAN extended-identifier base flag NTCAN_20B_BASE, 0x20000000. -/
def NTCAN_20B_BASE : Nat := 536870912

/-- Model of the NTCAN CMSG frame as filled in by NTCANBridge::send and
delivered by canRead: raw identifier, length field, and payload bytes. -/
structure CMSG where
  id : Nat
  len : Nat
  data : List Nat
deriving DecidableEq

/-- Frame construction of NTCANBridge::send (src/ntcan_bridge.cc, lines
37-48).  The two assertions are modelled as the `none` outcomes: the
identifier must have only its low 29 bits set and the payload length must
be at most 8.  On the success path the frame carries the identifier tagged
with NTCAN_20B_BASE, its length field is payload_length, and exactly
payload_length bytes of the caller's data are copied (memcpy). -/
def send_frame (id : Nat) (data : List Nat) (payload_length : Nat) : Option CMSG :=
  if 2 ^ 29 ≤ id then none
  else if 8 < payload_length then none
  else some ⟨Nat.lor id NTCAN_20B_BASE, payload_length, data.take payload_length⟩

/-- NTCANBridge::recv (src/ntcan_bridge.cc, lines 67-90).  `res` is the
canRead result code and `buffer` the frame deposited in m_buffer on
success.  The outer Option models the assertion that the received frame's
length field equals the requested payload_length (the msg_length assertion
is subsumed: on driver success exactly one CMSG was read).  The second
component of the result is the caller's destination buffer after the call:
memcpy overwrites exactly payload_length bytes on the success path and the
buffer is untouched on every throw path, because the throw happens before
the memcpy. -/
def recv (res : NTCANResult) (buffer : CMSG) (payload_length : Nat)
    (dest : List Nat) : Option (Except CANException Nat × List Nat) :=
  match canRead_result res with
  | .error e => some (.error e, dest)
  | .ok _ =>
      if buffer.len = payload_length then
        some (.ok buffer.id, buffer.data.take payload_length ++ dest.drop payload_length)
      else
        none

end Ntcan

namespace Init

/-- The two wheel controllers addressed by the DiffDriveRobot constructor. -/
inductive Wheel
  | left
  | right
deriving DecidableEq, Fintype

/-- The configuration commands a DiffDriveRobot can issue to a wheel
controller (src/diff_drive.cc).  The speedSetP / speedSetI / speedSetD
commands exist as public methods of the class but are listed here so that
their absence from the construction sequence can be stated. -/
inductive ConfigOp
  | brakeSet
  | speedRef
  | speedEnable
  | posRef
  | odomConfig
  | odomEnable
  | diagConfig
  | diagEnable
  | speedSetP
  | speedSetI
  | speedSetD
deriving DecidableEq, Fintype

/-- One observable event of the construction sequence: a command sent to a
wheel controller, the constructor blocking until that command's completion
token is acknowledged, or the final system_resume broadcast. -/
inductive InitEvent
  | cmd (op : ConfigOp) (w : Wheel)
  | ack (op : ConfigOp) (w : Wheel)
  | resume
deriving DecidableEq

/-- DiffDriveRobot::block(t1, t2) (src/diff_drive.cc, lines 305-309)
applied to one configuration step: the command is sent to each wheel when
its token is created, then the constructor blocks on the left token and
then on the right token before anything further runs. -/
def block_pair (op : ConfigOp) : List InitEvent :=
  [.cmd op .left, .cmd op .right, .ack op .left, .ack op .right]

/-- Event trace of DiffDriveRobot::speed_init (src/diff_drive.cc, lines
271-281): speed feedback source, then speed-control enable. -/
def speed_init_trace : List InitEvent :=
  block_pair .speedRef ++ block_pair .speedEnable

/-- Event trace of DiffDriveRobot::odom_init (src/diff_drive.cc, lines
113-150): position feedback source (quadrature encoder), then periodic
position+velocity telemetry configuration on channel 0, then its enable at
a 200 ms period. -/
def odom_init_trace : List InitEvent :=
  block_pair .posRef ++ block_pair .odomConfig ++ block_pair .odomEnable

/-- Event trace of DiffDriveRobot::diag_init (src/diff_drive.cc, lines
214-232): periodic diagnostics telemetry configuration on channel 1, then
its enable at a 500 ms period. -/
def diag_init_trace : List InitEvent :=
  block_pair .diagConfig ++ block_pair .diagEnable

/-- Event trace of the DiffDriveRobot constructor (src/diff_drive.cc,
lines 20-45): brake/coast configuration, speed_init, odom_init, diag_init,
and finally the system_resume broadcast. -/
def ctor_trace : List InitEvent :=
  block_pair .brakeSet ++ speed_init_trace ++ odom_init_trace ++
    diag_init_trace ++ [.resume]

end Init

namespace DiffDrive

/-- The sgn template of src/diff_drive.cc, lines 12-18. -/
noncomputable def sgn (x : ℝ) : ℝ :=
  if 0 < x then 1 else if x < 0 then -1 else 0

/-- Modelled from the spec: s16p16_to_double is declared in
jaguar_helper.h, which is not among the sources here.  The spec defines
s16.16 fixed point as a 32-bit value whose high 16 bits are a signed
integer part and whose low 16 bits are a fractional part, so the
conversion of a raw counter value to revolutions divides by 2^16. -/
noncomputable def s16p16_to_double (x : ℝ) : ℝ := x / 65536

/-- Truncation toward zero, as C fmod uses. -/
noncomputable def ctrunc (x : ℝ) : ℤ :=
  if 0 ≤ x then Int.floor x else Int.ceil x

/-- C fmod over the reals: x − trunc(x/y)·y. -/
noncomputable def cfmod (x y : ℝ) : ℝ := x - (ctrunc (x / y) : ℝ) * y

/-- Modelled from the external angles library used at diff_drive.cc line
199: the remainder of the angle modulo 2π, folded into [0, 2π). -/
noncomputable def normalize_angle_positive (a : ℝ) : ℝ :=
  cfmod (cfmod a (2 * Real.pi) + 2 * Real.pi) (2 * Real.pi)

/-- Modelled from the external angles library used at diff_drive.cc line
199: normalization of an angle to (−π, π]. -/
noncomputable def normalize_angle (a : ℝ) : ℝ :=
  if Real.pi < normalize_angle_positive a then
    normalize_angle_positive a - 2 * Real.pi
  else
    normalize_angle_positive a

/-- The odometry fusion state of src/diff_drive.cc: kNone when no fresh
sample is pending, otherwise the side whose fresh sample is pending.  The
enum lives in the (absent) header jaguar/diff_drive.h; its three values
are fixed by their uses in diff_drive.cc. -/
inductive Side
  | kNone
  | kLeft
  | kRight
deriving DecidableEq

/-- The mutable state of a DiffDriveRobot (src/diff_drive.cc), with C++
doubles embedded as real numbers.  `warnings` counts the dropped-update
warnings printed at line 207, and `published` records the argument tuple
of the last odom_signal_ emission (line 205), if any. -/
structure Robot where
  velocity_left : ℝ
  velocity_right : ℝ
  robot_radius : ℝ
  wheel_circum : ℝ
  current_rpm_left : ℝ
  current_rpm_right : ℝ
  target_rpm_left : ℝ
  target_rpm_right : ℝ
  accel_max : ℝ
  odom_last_left : ℝ
  odom_curr_left : ℝ
  odom_last_right : ℝ
  odom_curr_right : ℝ
  x : ℝ
  y : ℝ
  theta : ℝ
  odom_state : Side
  warnings : Nat
  published : Option (ℝ × ℝ × ℝ × ℝ × ℝ)

/-- DiffDriveRobot::drive_raw (src/diff_drive.cc, lines 58-62): converts
the two wheel linear velocities to target rotational speeds in RPM via the
wheel circumference. -/
noncomputable def drive_raw (r : Robot) (v_left v_right : ℝ) : Robot :=
  { r with
      target_rpm_left := v_left * 60 / r.wheel_circum
      target_rpm_right := v_right * 60 / r.wheel_circum }

/-- DiffDriveRobot::drive (src/diff_drive.cc, lines 51-56): differential
kinematics, v_left = v − r·ω and v_right = v + r·ω. -/
noncomputable def drive (r : Robot) (v omega : ℝ) : Robot :=
  drive_raw r (v - r.robot_radius * omega) (v + r.robot_radius * omega)

/-- The per-tick rotational speed-change bound of DiffDriveRobot::drive_spin
(src/diff_drive.cc, line 70): accel_max · dt · 60 / wheel_circum. -/
noncomputable def drpm_max (r : Robot) (dt : ℝ) : ℝ :=
  r.accel_max * dt * 60 / r.wheel_circum

/-- DiffDriveRobot::drive_spin (src/diff_drive.cc, lines 64-88): moves each
commanded wheel speed toward its target, clamping the change to drpm_max;
the trailing speed_set transmission does not alter the robot state. -/
noncomputable def drive_spin (r : Robot) (dt : ℝ) : Robot :=
  let residual_rpm_left := r.target_rpm_left - r.current_rpm_left
  let residual_rpm_right := r.target_rpm_right - r.current_rpm_right
  { r with
      current_rpm_left :=
        if |residual_rpm_left| ≤ drpm_max r dt then r.target_rpm_left
        else r.current_rpm_left + sgn residual_rpm_left * drpm_max r dt
      current_rpm_right :=
        if |residual_rpm_right| ≤ drpm_max r dt then r.target_rpm_right
        else r.current_rpm_right + sgn residual_rpm_right * drpm_max r dt }

/-- Iterated control ticks: drive_spin applied k times with a fixed dt. -/
noncomputable def spin_iter (dt : ℝ) : Nat → Robot → Robot
  | 0, r => r
  | n + 1, r => spin_iter dt n (drive_spin r dt)

/-- The one-wheel ramp rule of drive_spin (src/diff_drive.cc, lines
72-76), abstracted over the target, the current speed and the bound. -/
noncomputable def ramp (target cur m : ℝ) : ℝ :=
  if |target - cur| ≤ m then target else cur + sgn (target - cur) * m

/-- The one-wheel ramp rule iterated k times. -/
noncomputable def ramp_iter (target m : ℝ) : Nat → ℝ → ℝ
  | 0, cur => cur
  | n + 1, cur => ramp_iter target m n (ramp target cur m)

/-- The per-wheel encoder delta in revolutions computed by
DiffDriveRobot::odom_update (src/diff_drive.cc, lines 181-186): the raw
difference of the two converted samples. -/
noncomputable def odom_delta_revs (curr last : ℝ) : ℝ :=
  s16p16_to_double curr - s16p16_to_double last

/-- DiffDriveRobot::odom_update (src/diff_drive.cc, lines 157-209).  The
callback records the new sample and velocity for its side, and then either
marks the side as pending (no sample was pending), fuses the pending pair
into the pose (the other side was pending), or drops the update with a
warning (the same side was already pending). -/
noncomputable def odom_update (r : Robot) (side : Side) (new_pos velocity : ℝ) :
    Robot :=
  let r1 : Robot :=
    match side with
    | .kLeft =>
        { r with
            odom_last_left := r.odom_curr_left
            odom_curr_left := new_pos
            velocity_left := velocity }
    | .kRight =>
        { r with
            odom_last_right := r.odom_curr_right
            odom_curr_right := new_pos
            velocity_right := velocity }
    | .kNone => r
  if r1.odom_state = Side.kNone then
    { r1 with odom_state := side }
  else if r1.odom_state ≠ side then
    let revs_left :=
      s16p16_to_double r1.odom_curr_left - s16p16_to_double r1.odom_last_left
    let revs_right :=
      s16p16_to_double r1.odom_curr_right - s16p16_to_double r1.odom_last_right
    let meters_left := revs_left * r1.wheel_circum
    let meters_right := revs_right * r1.wheel_circum
    let meters := (meters_left + meters_right) / 2
    let radians := (meters_left - meters_right) / (2 * r1.robot_radius)
    let x2 := r1.x + meters * Real.cos r1.theta
    let y2 := r1.y + meters * Real.sin r1.theta
    let theta2 := normalize_angle (r1.theta + radians)
    let v_linear := (r1.velocity_right + r1.velocity_left) / 2
    let omega := (r1.velocity_right - r1.velocity_left) / (2 * r1.robot_radius)
    { r1 with
        x := x2
        y := y2
        theta := theta2
        odom_state := Side.kNone
        published := some (x2, y2, theta2, v_linear, omega) }
  else
    { r1 with warnings := r1.warnings + 1 }

/-- The sample and pose reset of DiffDriveRobot::odom_init
(src/diff_drive.cc, lines 115-121). -/
def odom_init (r : Robot) : Robot :=
  { r with
      odom_curr_left := 0
      odom_curr_right := 0
      odom_last_left := 0
      odom_last_right := 0
      x := 0
      y := 0
      theta := 0 }

/-- The pose-update formulas exactly as the spec states them, for
comparison with odom_update: meters = revs·circumference on each side,
linear = (meters_left + meters_right)/2, angular = (meters_left −
meters_right)/(2·radius), x += linear·cos θ, y += linear·sin θ,
θ = normalize(θ + angular). -/
noncomputable def spec_pose_step (x y theta revs_left revs_right circum radius : ℝ) :
    ℝ × ℝ × ℝ :=
  let meters_left := revs_left * circum
  let meters_right := revs_right * circum
  let linear := (meters_left + meters_right) / 2
  let angular := (meters_left - meters_right) / (2 * radius)
  (x + linear * Real.cos theta, y + linear * Real.sin theta,
    normalize_angle (theta + angular))

/-- A robot state whose pending left sample pair straddles the s16.16
counter bounds: the last sample is −32767 revolutions (raw −2147418112)
and the current sample is +32767 revolutions (raw 2147418112); the right
wheel is at rest at zero.  Wheel circumference and robot radius are 1 and
the pose is the origin. -/
def wrap_robot : Robot :=
  ⟨0, 0, 1, 1, 0, 0, 0, 0, 0, -2147418112, 2147418112, 0, 0, 0, 0, 0,
    Side.kLeft, 0, none⟩

/-- The start state of the pose-integration scenario: all encoder samples
and the pose at zero (as odom_init leaves them), no side pending, wheel
circumference c and robot radius rr. -/
def scenario_start (c rr : ℝ) : Robot :=
  ⟨0, 0, rr, c, 0, 0, 0, 0, 0, 0, 0, 0, 0, 0, 0, 0, Side.kNone, 0, none⟩

/-- A concrete robot for exercising the acceleration ramp: wheel
circumference 60, accel_max 1, both wheels commanded from rest to
5 RPM, so that one tick with dt = 1 allows a change of exactly 1 RPM. -/
def spin_witness_robot : Robot :=
  ⟨0, 0, 1, 60, 0, 0, 5, 5, 1, 0, 0, 0, 0, 0, 0, 0, Side.kNone, 0, none⟩

/-- A concrete robot with a fresh left encoder sample pending (one
revolution, raw 65536, since the previous sample), wheel circumference 2
and robot radius 1. -/
def pending_left_robot : Robot :=
  ⟨0, 0, 1, 2, 0, 0, 0, 0, 0, 0, 65536, 0, 0, 0, 0, 0, Side.kLeft, 0, none⟩

end DiffDrive

namespace Framing

/-!
The serial framing codec.  Its constants and operations (kSOF, kESC,
kSOFESC, kESCESC, recv_byte, unpack_packet, encode_bytes) are declared in
src/jaguar_bridge.h, but their implementation file is not among the
sources here, so the codec is modelled from the spec: a frame is the SOF
byte, a length byte counting the unescaped identifier+payload bytes, and
the escaped body; the two reserved byte values cannot appear literally in
the escaped region and are each replaced by ESC followed by a substitute
byte unique to the escaped value; the decoder is a state machine
Waiting → Length → Payload that un-escapes on the fly, treats a malformed
escape or an out-of-range length as a synchronization fault (discard and
return to Waiting), and on completion reinterprets the first 4 bytes as
the identifier and the remainder as the payload.
-/

/-- Modelled from the spec: the start-of-frame byte kSOF. -/
def kSOF : Nat := 255

/-- Modelled from the spec: the escape byte kESC. -/
def kESC : Nat := 254

/-- Modelled from the spec: the substitute byte that encodes a literal
kSOF after an escape. -/
def kSOFESC : Nat := 254

/-- Modelled from the spec: the substitute byte that encodes a literal
kESC after an escape. -/
def kESCESC : Nat := 253

/-- A decoded CAN message: identifier and payload bytes
(src/jaguar_bridge.h declares CANMessage consumers). -/
structure CANMessage where
  id : Nat
  payload : List Nat
deriving DecidableEq

/-- Modelled from the spec: escaping of one body byte — each reserved
byte value is replaced by kESC followed by its unique substitute. -/
def escape_byte (b : Nat) : List Nat :=
  if b = kSOF then [kESC, kSOFESC]
  else if b = kESC then [kESC, kESCESC]
  else [b]

/-- Modelled from the spec: JaguarBridge::encode_bytes — escape a byte
sequence for the wire. -/
def encode_bytes (bs : List Nat) : List Nat :=
  (bs.map escape_byte).flatten

/-- The identifier serialized as its 4 little-endian bytes. -/
def id_to_bytes (id : Nat) : List Nat :=
  [id % 256, id / 256 % 256, id / 256 ^ 2 % 256, id / 256 ^ 3 % 256]

/-- The identifier read back from the first 4 bytes of a packet. -/
def bytes_to_id : List Nat → Nat
  | b0 :: b1 :: b2 :: b3 :: _ => b0 + 256 * b1 + 256 ^ 2 * b2 + 256 ^ 3 * b3
  | _ => 0

/-- Modelled from the spec: the encoder wraps a message as SOF, the count
of unescaped identifier+payload bytes, and the escaped body. -/
def encode (m : CANMessage) : List Nat :=
  kSOF :: (4 + m.payload.length) :: encode_bytes (id_to_bytes m.id ++ m.payload)

/-- The decoder phases of the spec state machine (ReceiveState in
src/jaguar_bridge.h; the Complete phase is transient — the decoder emits
the message and resets to Waiting in the same step). -/
inductive Phase
  | waiting
  | sizing
  | payload
deriving DecidableEq

/-- Modelled from the spec: the transient parser state — phase,
accumulated logical bytes, expected logical length, and whether an escape
byte is pending. -/
structure DecoderState where
  phase : Phase
  packet : List Nat
  count : Nat
  escape : Bool
deriving DecidableEq

/-- Modelled from the spec: JaguarBridge::unpack_packet — the first 4
bytes of a completed packet are the identifier and the remainder is the
payload. -/
def unpack_packet (p : List Nat) : CANMessage :=
  ⟨bytes_to_id p, p.drop 4⟩

/-- Appending one logical byte to the in-progress packet; when the
expected count is reached the message is emitted and the state resets to
Waiting. -/
def payload_push (s : DecoderState) (v : Nat) : DecoderState × Option CANMessage :=
  if s.packet.length + 1 = s.count then
    (⟨.waiting, [], 0, false⟩, some (unpack_packet (s.packet ++ [v])))
  else
    (⟨.payload, s.packet ++ [v], s.count, false⟩, none)

/-- Modelled from the spec: JaguarBridge::recv_byte — one step of the
decode state machine.  In Waiting everything but SOF is skipped; the
length byte must be in the valid range 4..12 (4 identifier bytes plus at
most 8 payload bytes), otherwise the frame is discarded; in Payload an ESC
shifts into escape-pending, the byte after an escape is mapped back to its
literal value, and a malformed escape discards the frame. -/
def recv_byte (s : DecoderState) (b : Nat) : DecoderState × Option CANMessage :=
  match s.phase with
  | .waiting =>
      if b = kSOF then (⟨.sizing, [], 0, false⟩, none) else (s, none)
  | .sizing =>
      if 4 ≤ b ∧ b ≤ 12 then (⟨.payload, [], b, false⟩, none)
      else (⟨.waiting, [], 0, false⟩, none)
  | .payload =>
      if s.escape then
        if b = kSOFESC then payload_push ⟨.payload, s.packet, s.count, false⟩ kSOF
        else if b = kESCESC then payload_push ⟨.payload, s.packet, s.count, false⟩ kESC
        else (⟨.waiting, [], 0, false⟩, none)
      else if b = kESC then (⟨.payload, s.packet, s.count, true⟩, none)
      else payload_push s b

/-- Running the decoder over a byte stream, returning the first complete
message. -/
def decode_from : DecoderState → List Nat → Option CANMessage
  | _, [] => none
  | s, b :: rest =>
      match recv_byte s b with
      | (_, some m) => some m
      | (s2, none) => decode_from s2 rest

/-- The decoder's reset state. -/
def initial_state : DecoderState := ⟨.waiting, [], 0, false⟩

/-- Decoding a byte stream from the reset state. -/
def decode (bs : List Nat) : Option CANMessage :=
  decode_from initial_state bs

end Framing

namespace Ntcan

/-- Claim C7: every transport failure of NTCANBridge::send and
NTCANBridge::recv is propagated as a typed CANException with a distinct
condition — driver/version incompatibility on open, bus-off / error-frame
storm and send timeout on send, receive timeout on receive — the bridge
returns normally only when the driver reports success, and it never
silently ignores a failed operation (every non-success code maps to an
error). -/
theorem ntcan_errors_typed :
    (canOpen_result .success = .ok () ∧ canWrite_result .success = .ok () ∧
      canRead_result .success = .ok ())
  ∧ (∀ res, res ≠ NTCANResult.success → ∃ e, canWrite_result res = .error e)
  ∧ (∀ res, res ≠ NTCANResult.success → ∃ e, canRead_result res = .error e)
  ∧ (∀ res, res ≠ NTCANResult.success → ∃ e, canOpen_result res = .error e)
  ∧ canOpen_result .invalidDriver =
      .error ⟨"Incompatible device driver and NTCAN versions."⟩
  ∧ canWrite_result .contrOffBus =
      .error ⟨"Too many CAN error frames have been received."⟩
  ∧ canWrite_result .txTimeout = .error ⟨"Transmission timeout exceeded."⟩
  ∧ canRead_result .rxTimeout = .error ⟨"Receive timeout exceeded."⟩
  ∧ ("Incompatible device driver and NTCAN versions." ≠
      "Too many CAN error frames have been received.")
  ∧ ("Incompatible device driver and NTCAN versions." ≠
      "Transmission timeout exceeded.")
  ∧ ("Incompatible device driver and NTCAN versions." ≠
      "Receive timeout exceeded.")
  ∧ ("Too many CAN error frames have been received." ≠
      "Transmission timeout exceeded.")
  ∧ ("Too many CAN error frames have been received." ≠
      "Receive timeout exceeded.")
  ∧ ("Transmission timeout exceeded." ≠ "Receive timeout exceeded.") := by
  refine ⟨⟨rfl, rfl, rfl⟩, ?_, ?_, ?_, rfl, rfl, rfl, rfl,
    by decide, by decide, by decide, by decide, by decide, by decide⟩
  · intro res h
    cases res
    · exact absurd rfl h
    all_goals exact ⟨_, rfl⟩
  · intro res h
    cases res
    · exact absurd rfl h
    all_goals exact ⟨_, rfl⟩
  · intro res h
    cases res
    · exact absurd rfl h
    all_goals exact ⟨_, rfl⟩

/-- Concrete instantiation of ntcan_errors_typed: a send-path error code
that is not success indeed surfaces as an exception. -/
theorem ntcan_errors_typed_witness :
    NTCANResult.txError ≠ NTCANResult.success ∧
    ∃ e, canWrite_result NTCANResult.txError = .error e :=
  ⟨by decide, ntcan_errors_typed.2.1 NTCANResult.txError (by decide)⟩

/-- Claim C9: under the preconditions that the identifier has only its low
29 bits set and the payload length is at most 8 bytes, both assertions in
NTCANBridge::send pass (the failure branch is unreachable), the outgoing
frame's length field equals payload_length, and exactly payload_length
bytes of the caller's data are copied into it. -/
theorem ntcan_send_frame_spec (id : Nat) (data : List Nat) (payload_length : Nat)
    (hid : id < 2 ^ 29) (hlen : payload_length ≤ 8) :
    send_frame id data payload_length =
      some ⟨Nat.lor id NTCAN_20B_BASE, payload_length, data.take payload_length⟩
    ∧ (payload_length ≤ data.length →
        (data.take payload_length).length = payload_length) := by
  constructor
  · have h1 : ¬ 2 ^ 29 ≤ id := Nat.not_le.mpr hid
    have h2 : ¬ 8 < payload_length := Nat.not_lt.mpr hlen
    unfold send_frame
    rw [if_neg h1, if_neg h2]
  · intro hd
    simp [List.length_take, Nat.min_eq_left hd]

/-- Concrete instantiation of ntcan_send_frame_spec. -/
theorem ntcan_send_frame_spec_witness :
    (5 : Nat) < 2 ^ 29 ∧ (2 : Nat) ≤ 8 ∧
    (send_frame 5 [10, 20, 30] 2 =
      some ⟨Nat.lor 5 NTCAN_20B_BASE, 2, [10, 20, 30].take 2⟩
    ∧ ((2 : Nat) ≤ [10, 20, 30].length → ([10, 20, 30].take 2).length = 2)) :=
  ⟨by norm_num, by norm_num,
    ntcan_send_frame_spec 5 [10, 20, 30] 2 (by norm_num) (by norm_num)⟩

/-- Claim C10: if NTCANBridge::recv raises (receive timeout or unknown
driver error) the caller's destination buffer is left completely
unchanged; if it returns normally and the received frame's length field
equals the requested payload_length, then exactly payload_length bytes of
the frame's payload have been copied into the destination buffer (the rest
of the buffer is untouched) and the returned value is the raw identifier
of that frame. -/
theorem ntcan_recv_spec (buffer : CMSG) (payload_length : Nat) (dest : List Nat)
    (hlen : buffer.len = payload_length) :
    recv NTCANResult.rxTimeout buffer payload_length dest =
      some (.error ⟨"Receive timeout exceeded."⟩, dest)
  ∧ recv NTCANResult.other buffer payload_length dest =
      some (.error ⟨"An unknown error has occurred."⟩, dest)
  ∧ recv NTCANResult.success buffer payload_length dest =
      some (.ok buffer.id, buffer.data.take payload_length ++ dest.drop payload_length)
  ∧ (payload_length ≤ buffer.data.length →
      (buffer.data.take payload_length).length = payload_length) := by
  refine ⟨rfl, rfl, ?_, ?_⟩
  · simp [recv, canRead_result, hlen]
  · intro hd
    simp [List.length_take, Nat.min_eq_left hd]

/-- Concrete instantiation of ntcan_recv_spec. -/
theorem ntcan_recv_spec_witness :
    (CMSG.len ⟨3, 2, [7, 8, 9]⟩ = 2) ∧
    (recv NTCANResult.rxTimeout ⟨3, 2, [7, 8, 9]⟩ 2 [0, 0, 0] =
      some (.error ⟨"Receive timeout exceeded."⟩, [0, 0, 0])
    ∧ recv NTCANResult.other ⟨3, 2, [7, 8, 9]⟩ 2 [0, 0, 0] =
      some (.error ⟨"An unknown error has occurred."⟩, [0, 0, 0])
    ∧ recv NTCANResult.success ⟨3, 2, [7, 8, 9]⟩ 2 [0, 0, 0] =
      some (.ok (CMSG.id ⟨3, 2, [7, 8, 9]⟩),
        (CMSG.data ⟨3, 2, [7, 8, 9]⟩).take 2 ++ [0, 0, 0].drop 2)
    ∧ ((2 : Nat) ≤ (CMSG.data ⟨3, 2, [7, 8, 9]⟩).length →
        ((CMSG.data ⟨3, 2, [7, 8, 9]⟩).take 2).length = 2)) :=
  ⟨rfl, ntcan_recv_spec ⟨3, 2, [7, 8, 9]⟩ 2 [0, 0, 0] rfl⟩

end Ntcan

namespace Init

/-- Counterexample to claim C6: the DiffDriveRobot constructor never
configures PID gains.  No speed_set_p / speed_set_i / speed_set_d command
appears anywhere in the construction event trace, for either wheel, so the
claimed "speed-control feedback source and PID gains configuration" step
does not configure PID gains. -/
theorem ctor_no_pid_config :
    InitEvent.cmd .speedSetP .left ∉ ctor_trace
  ∧ InitEvent.cmd .speedSetP .right ∉ ctor_trace
  ∧ InitEvent.cmd .speedSetI .left ∉ ctor_trace
  ∧ InitEvent.cmd .speedSetI .right ∉ ctor_trace
  ∧ InitEvent.cmd .speedSetD .left ∉ ctor_trace
  ∧ InitEvent.cmd .speedSetD .right ∉ ctor_trace := by
  decide

/-- Claim C6, amended: the DiffDriveRobot initialization sequence
performs, in order: brake/coast configuration, speed-control feedback
source configuration, position feedback (quadrature encoder)
configuration, periodic telemetry configuration (position+velocity on one
channel, diagnostics on another) at a fixed period, and finally the
resume-operation broadcast; each configuration step is a command/ack
round-trip in which the constructor blocks on both wheels' completion
tokens before issuing the next step, surfacing the first failure, and the
resume broadcast is never sent before all configuration steps have
acknowledged.  (The only change forced by the counterexample: the original
claim's "speed-control feedback source and PID gains configuration" loses
"and PID gains" — no PID-gain command is issued during construction.  A
blocking round-trip surfaces a failure as the exception thrown out of the
send path of the commands whose events the trace records.) -/
theorem ctor_trace_order :
    (ctor_trace.getLast? = some .resume)
  ∧ (∀ op w, InitEvent.ack op w ∈ ctor_trace →
      ctor_trace.indexOf (InitEvent.ack op w) <
        ctor_trace.indexOf InitEvent.resume)
  ∧ (∀ op, (InitEvent.cmd op .left ∈ ctor_trace →
      ctor_trace.indexOf (InitEvent.cmd op .left) <
        ctor_trace.indexOf (InitEvent.cmd op .right) ∧
      ctor_trace.indexOf (InitEvent.cmd op .right) <
        ctor_trace.indexOf (InitEvent.ack op .left) ∧
      ctor_trace.indexOf (InitEvent.ack op .left) <
        ctor_trace.indexOf (InitEvent.ack op .right)))
  ∧ (ctor_trace.indexOf (InitEvent.ack .brakeSet .right) <
      ctor_trace.indexOf (InitEvent.cmd .speedRef .left))
  ∧ (ctor_trace.indexOf (InitEvent.ack .speedRef .right) <
      ctor_trace.indexOf (InitEvent.cmd .speedEnable .left))
  ∧ (ctor_trace.indexOf (InitEvent.ack .speedEnable .right) <
      ctor_trace.indexOf (InitEvent.cmd .posRef .left))
  ∧ (ctor_trace.indexOf (InitEvent.ack .posRef .right) <
      ctor_trace.indexOf (InitEvent.cmd .odomConfig .left))
  ∧ (ctor_trace.indexOf (InitEvent.ack .odomConfig .right) <
      ctor_trace.indexOf (InitEvent.cmd .odomEnable .left))
  ∧ (ctor_trace.indexOf (InitEvent.ack .odomEnable .right) <
      ctor_trace.indexOf (InitEvent.cmd .diagConfig .left))
  ∧ (ctor_trace.indexOf (InitEvent.ack .diagConfig .right) <
      ctor_trace.indexOf (InitEvent.cmd .diagEnable .left))
  ∧ (ctor_trace.indexOf (InitEvent.ack .diagEnable .right) <
      ctor_trace.indexOf InitEvent.resume) := by
  decide

end Init

namespace DiffDrive

/-- Staying within the bound moves the commanded speed exactly to the
target (src/diff_drive.cc, lines 72-73). -/
theorem ramp_close (t c m : ℝ) (h : |t - c| ≤ m) : ramp t c m = t := by
  unfold ramp
  rw [if_pos h]

/-- Beyond the bound the commanded speed moves by sgn(residual)·bound
(src/diff_drive.cc, lines 74-75). -/
theorem ramp_far (t c m : ℝ) (h : m < |t - c|) :
    ramp t c m = c + sgn (t - c) * m := by
  unfold ramp
  rw [if_neg (not_le.mpr h)]

/-- One far tick shrinks the residual magnitude by exactly the bound. -/
theorem ramp_residual (t c m : ℝ) (hm : 0 ≤ m) (h : m < |t - c|) :
    |t - ramp t c m| = |t - c| - m := by
  rw [ramp_far t c m h]
  rcases lt_trichotomy (t - c) 0 with hneg | hzero | hpos
  · have hs : sgn (t - c) = -1 := by
      unfold sgn
      rw [if_neg (by linarith), if_pos hneg]
    rw [hs]
    rw [abs_of_neg hneg] at h
    have he : t - (c + -1 * m) = t - c + m := by ring
    rw [he, abs_of_neg (by linarith), abs_of_neg hneg]
    ring
  · exfalso
    rw [hzero] at h
    simp at h
    linarith
  · have hs : sgn (t - c) = 1 := by
      unfold sgn
      rw [if_pos hpos]
    rw [hs]
    rw [abs_of_pos hpos] at h
    have he : t - (c + 1 * m) = t - c - m := by ring
    rw [he, abs_of_nonneg (by linarith), abs_of_pos hpos]

/-- The per-tick change of the commanded speed is at most the bound. -/
theorem ramp_change_le (t c m : ℝ) (hm : 0 ≤ m) : |ramp t c m - c| ≤ m := by
  rcases le_or_lt (|t - c|) m with hle | hgt
  · rw [ramp_close t c m hle]
    exact hle
  · rw [ramp_far t c m hgt]
    have he : c + sgn (t - c) * m - c = sgn (t - c) * m := by ring
    rw [he, abs_mul]
    have hs : |sgn (t - c)| ≤ 1 := by
      unfold sgn
      rcases lt_trichotomy (t - c) 0 with hn | hz | hp
      · rw [if_neg (by linarith), if_pos hn]
        norm_num
      · rw [hz]
        norm_num
      · rw [if_pos hp]
        norm_num
    calc |sgn (t - c)| * |m| ≤ 1 * |m| :=
          mul_le_mul_of_nonneg_right hs (abs_nonneg m)
      _ = m := by rw [one_mul, abs_of_nonneg hm]

/-- Beyond the bound the per-tick change equals sgn(residual)·bound and
its magnitude is exactly the bound. -/
theorem ramp_change_far (t c m : ℝ) (hm : 0 ≤ m) (h : m < |t - c|) :
    ramp t c m - c = sgn (t - c) * m ∧ |ramp t c m - c| = m := by
  have he : ramp t c m - c = sgn (t - c) * m := by
    rw [ramp_far t c m h]
    ring
  refine ⟨he, ?_⟩
  have hne : t - c ≠ 0 := by
    intro h0
    rw [h0] at h
    simp at h
    linarith
  have hs : |sgn (t - c)| = 1 := by
    unfold sgn
    rcases lt_trichotomy (t - c) 0 with hn | hz | hp
    · rw [if_neg (by linarith), if_pos hn]
      norm_num
    · exact absurd hz hne
    · rw [if_pos hp]
      norm_num
  rw [he, abs_mul, hs, one_mul, abs_of_nonneg hm]

/-- Enough ticks always reach the target. -/
theorem ramp_iter_reach (t m : ℝ) (hm : 0 ≤ m) :
    ∀ (k : Nat) (c : ℝ), |t - c| ≤ (k : ℝ) * m → ramp_iter t m k c = t := by
  intro k
  induction k with
  | zero =>
      intro c h
      have h0 : |t - c| ≤ 0 := by simpa using h
      have he : t - c = 0 := abs_nonpos_iff.mp h0
      have : t = c := by linarith
      simpa [ramp_iter] using this.symm
  | succ n ih =>
      intro c h
      show ramp_iter t m n (ramp t c m) = t
      rcases le_or_lt (|t - c|) m with hle | hgt
      · rw [ramp_close t c m hle]
        apply ih
        simp [sub_self, abs_zero]
        positivity
      · apply ih
        rw [ramp_residual t c m hm hgt]
        push_cast at h
        linarith

/-- Before enough ticks have elapsed the residual is still positive in
magnitude: its size after k ticks is the initial size minus k·bound. -/
theorem ramp_iter_residual (t m : ℝ) (hm : 0 ≤ m) :
    ∀ (k : Nat) (c : ℝ), (k : ℝ) * m < |t - c| →
      |t - ramp_iter t m k c| = |t - c| - (k : ℝ) * m := by
  intro k
  induction k with
  | zero =>
      intro c h
      simp [ramp_iter]
  | succ n ih =>
      intro c h
      push_cast at h
      have hnm : (0 : ℝ) ≤ (n : ℝ) * m := mul_nonneg (Nat.cast_nonneg n) hm
      have hm_lt : m < |t - c| := by linarith
      show |t - ramp_iter t m n (ramp t c m)| = _
      rw [ih (ramp t c m) (by rw [ramp_residual t c m hm hm_lt]; linarith),
        ramp_residual t c m hm hm_lt]
      push_cast
      ring

/-- The left wheel of drive_spin follows the one-wheel ramp rule. -/
theorem drive_spin_left (r : Robot) (dt : ℝ) :
    (drive_spin r dt).current_rpm_left =
      ramp r.target_rpm_left r.current_rpm_left (drpm_max r dt) := rfl

/-- The right wheel of drive_spin follows the one-wheel ramp rule. -/
theorem drive_spin_right (r : Robot) (dt : ℝ) :
    (drive_spin r dt).current_rpm_right =
      ramp r.target_rpm_right r.current_rpm_right (drpm_max r dt) := rfl

/-- Iterated control ticks iterate the one-wheel ramp rule on the left
wheel; drive_spin leaves the targets and the bound untouched. -/
theorem spin_iter_left (dt : ℝ) :
    ∀ (k : Nat) (r : Robot),
      (spin_iter dt k r).current_rpm_left =
        ramp_iter r.target_rpm_left (drpm_max r dt) k r.current_rpm_left := by
  intro k
  induction k with
  | zero =>
      intro r
      rfl
  | succ n ih =>
      intro r
      show (spin_iter dt n (drive_spin r dt)).current_rpm_left = _
      rw [ih (drive_spin r dt)]
      rfl

/-- Iterated control ticks iterate the one-wheel ramp rule on the right
wheel. -/
theorem spin_iter_right (dt : ℝ) :
    ∀ (k : Nat) (r : Robot),
      (spin_iter dt k r).current_rpm_right =
        ramp_iter r.target_rpm_right (drpm_max r dt) k r.current_rpm_right := by
  intro k
  induction k with
  | zero =>
      intro r
      rfl
  | succ n ih =>
      intro r
      show (spin_iter dt n (drive_spin r dt)).current_rpm_right = _
      rw [ih (drive_spin r dt)]
      rfl

end DiffDrive

namespace DiffDrive

/-- Auxiliary: the angle normalization fixes zero. -/
theorem normalize_angle_zero : normalize_angle 0 = 0 := by
  have h2 : (2 * Real.pi) ≠ 0 := by positivity
  have e1 : cfmod 0 (2 * Real.pi) = 0 := by
    unfold cfmod ctrunc
    rw [zero_div]
    norm_num
  have e2 : cfmod (0 + 2 * Real.pi) (2 * Real.pi) = 0 := by
    unfold cfmod ctrunc
    rw [zero_add, div_self h2]
    norm_num
  have hpos : normalize_angle_positive 0 = 0 := by
    unfold normalize_angle_positive
    rw [e1, e2]
  unfold normalize_angle
  rw [hpos, if_neg (not_lt.mpr Real.pi_pos.le)]

/-- Claim C3: drive(v, omega) sets the left wheel target to
(v − robot_radius·omega)·60/circumference and the right wheel target to
(v + robot_radius·omega)·60/circumference; drive(1, 0) yields equal
left/right target speeds, and drive(0, 1) yields equal-magnitude
opposite-sign target speeds scaled by the robot radius. -/
theorem drive_kinematics :
    (∀ (r : Robot) (v omega : ℝ),
      (drive r v omega).target_rpm_left =
        (v - r.robot_radius * omega) * 60 / r.wheel_circum ∧
      (drive r v omega).target_rpm_right =
        (v + r.robot_radius * omega) * 60 / r.wheel_circum)
  ∧ (∀ r : Robot,
      (drive r 1 0).target_rpm_left = (drive r 1 0).target_rpm_right)
  ∧ (∀ r : Robot,
      (drive r 0 1).target_rpm_left =
        -(r.robot_radius * 60 / r.wheel_circum) ∧
      (drive r 0 1).target_rpm_right =
        r.robot_radius * 60 / r.wheel_circum ∧
      |(drive r 0 1).target_rpm_left| = |(drive r 0 1).target_rpm_right|) := by
  refine ⟨fun r v omega => ⟨rfl, rfl⟩, fun r => ?_, fun r => ?_⟩
  · show (1 - r.robot_radius * 0) * 60 / r.wheel_circum =
      (1 + r.robot_radius * 0) * 60 / r.wheel_circum
    ring
  · have h1 : (drive r 0 1).target_rpm_left =
        -(r.robot_radius * 60 / r.wheel_circum) := by
      show (0 - r.robot_radius * 1) * 60 / r.wheel_circum = _
      ring
    have h2 : (drive r 0 1).target_rpm_right =
        r.robot_radius * 60 / r.wheel_circum := by
      show (0 + r.robot_radius * 1) * 60 / r.wheel_circum = _
      ring
    exact ⟨h1, h2, by rw [h1, h2, abs_neg]⟩

/-- Claim C5: on every drive_spin(dt) tick, for each wheel, the change of
the commanded speed is clamped to at most accel_max·dt·60/circumference:
a residual within the bound snaps the commanded speed exactly to the
target, a larger residual moves it toward the target by exactly the
bound; iterating, the target is reached after k ticks exactly when
k·bound covers the initial residual — a step command exceeding the bound
is clamped to the bound on the first tick and reaches the target only
after enough ticks. -/
theorem drive_spin_ramp (r : Robot) (dt : ℝ) (hm : 0 < drpm_max r dt) :
    ((|r.target_rpm_left - r.current_rpm_left| ≤ drpm_max r dt →
        (drive_spin r dt).current_rpm_left = r.target_rpm_left)
    ∧ (drpm_max r dt < |r.target_rpm_left - r.current_rpm_left| →
        (drive_spin r dt).current_rpm_left - r.current_rpm_left =
          sgn (r.target_rpm_left - r.current_rpm_left) * drpm_max r dt ∧
        |(drive_spin r dt).current_rpm_left - r.current_rpm_left| =
          drpm_max r dt)
    ∧ |(drive_spin r dt).current_rpm_left - r.current_rpm_left| ≤ drpm_max r dt
    ∧ (∀ k : Nat,
        |r.target_rpm_left - r.current_rpm_left| ≤ (k : ℝ) * drpm_max r dt →
        (spin_iter dt k r).current_rpm_left = r.target_rpm_left)
    ∧ (∀ k : Nat,
        (k : ℝ) * drpm_max r dt < |r.target_rpm_left - r.current_rpm_left| →
        (spin_iter dt k r).current_rpm_left ≠ r.target_rpm_left))
  ∧ ((|r.target_rpm_right - r.current_rpm_right| ≤ drpm_max r dt →
        (drive_spin r dt).current_rpm_right = r.target_rpm_right)
    ∧ (drpm_max r dt < |r.target_rpm_right - r.current_rpm_right| →
        (drive_spin r dt).current_rpm_right - r.current_rpm_right =
          sgn (r.target_rpm_right - r.current_rpm_right) * drpm_max r dt ∧
        |(drive_spin r dt).current_rpm_right - r.current_rpm_right| =
          drpm_max r dt)
    ∧ |(drive_spin r dt).current_rpm_right - r.current_rpm_right| ≤ drpm_max r dt
    ∧ (∀ k : Nat,
        |r.target_rpm_right - r.current_rpm_right| ≤ (k : ℝ) * drpm_max r dt →
        (spin_iter dt k r).current_rpm_right = r.target_rpm_right)
    ∧ (∀ k : Nat,
        (k : ℝ) * drpm_max r dt < |r.target_rpm_right - r.current_rpm_right| →
        (spin_iter dt k r).current_rpm_right ≠ r.target_rpm_right)) := by
  constructor
  · refine ⟨?_, ?_, ?_, ?_, ?_⟩
    · intro h
      rw [drive_spin_left]
      exact ramp_close _ _ _ h
    · intro h
      rw [drive_spin_left]
      exact ramp_change_far _ _ _ hm.le h
    · rw [drive_spin_left]
      exact ramp_change_le _ _ _ hm.le
    · intro k hk
      rw [spin_iter_left]
      exact ramp_iter_reach _ _ hm.le k _ hk
    · intro k hk heq
      rw [spin_iter_left] at heq
      have hres := ramp_iter_residual r.target_rpm_left (drpm_max r dt)
        hm.le k r.current_rpm_left hk
      rw [heq] at hres
      simp at hres
      nlinarith [hk, hres, abs_nonneg (r.target_rpm_left - r.current_rpm_left)]
  · refine ⟨?_, ?_, ?_, ?_, ?_⟩
    · intro h
      rw [drive_spin_right]
      exact ramp_close _ _ _ h
    · intro h
      rw [drive_spin_right]
      exact ramp_change_far _ _ _ hm.le h
    · rw [drive_spin_right]
      exact ramp_change_le _ _ _ hm.le
    · intro k hk
      rw [spin_iter_right]
      exact ramp_iter_reach _ _ hm.le k _ hk
    · intro k hk heq
      rw [spin_iter_right] at heq
      have hres := ramp_iter_residual r.target_rpm_right (drpm_max r dt)
        hm.le k r.current_rpm_right hk
      rw [heq] at hres
      simp at hres
      nlinarith [hk, hres, abs_nonneg (r.target_rpm_right - r.current_rpm_right)]

/-- Concrete instantiation of drive_spin_ramp: with circumference 60,
accel_max 1 and dt 1 the bound is 1 RPM; a step command of 5 RPM from
rest changes the commanded speed by exactly the bound on the first
tick. -/
theorem drive_spin_ramp_witness :
    0 < drpm_max spin_witness_robot 1 ∧
    drpm_max spin_witness_robot 1 <
      |spin_witness_robot.target_rpm_left - spin_witness_robot.current_rpm_left| ∧
    ((drive_spin spin_witness_robot 1).current_rpm_left -
        spin_witness_robot.current_rpm_left =
      sgn (spin_witness_robot.target_rpm_left -
        spin_witness_robot.current_rpm_left) * drpm_max spin_witness_robot 1 ∧
    |(drive_spin spin_witness_robot 1).current_rpm_left -
        spin_witness_robot.current_rpm_left| = drpm_max spin_witness_robot 1) := by
  have hm : 0 < drpm_max spin_witness_robot 1 := by
    norm_num [drpm_max, spin_witness_robot]
  have hgt : drpm_max spin_witness_robot 1 <
      |spin_witness_robot.target_rpm_left - spin_witness_robot.current_rpm_left| := by
    norm_num [drpm_max, spin_witness_robot]
  exact ⟨hm, hgt, (drive_spin_ramp spin_witness_robot 1 hm).1.2.1 hgt⟩

end DiffDrive

namespace DiffDrive

/-- Claim C2: on every odometry fusion step the pose is updated exactly by
the spec formulas — meters = revs·circumference per side, linear =
(meters_left + meters_right)/2, angular = (meters_left −
meters_right)/(2·robot_radius), x += linear·cos θ, y += linear·sin θ,
θ = normalize(θ + angular) — where the per-wheel revolution deltas are the
differences of the two most recent converted samples; and starting from
the origin, equal left-then-right deltas of +1.0 revolution leave y and θ
unchanged and advance x by exactly the wheel circumference. -/
theorem odom_fusion_formulas :
    (∀ (r : Robot) (np v : ℝ), r.odom_state = Side.kLeft →
      ((odom_update r Side.kRight np v).x, (odom_update r Side.kRight np v).y,
        (odom_update r Side.kRight np v).theta) =
      spec_pose_step r.x r.y r.theta
        (s16p16_to_double r.odom_curr_left - s16p16_to_double r.odom_last_left)
        (s16p16_to_double np - s16p16_to_double r.odom_curr_right)
        r.wheel_circum r.robot_radius)
  ∧ (∀ (r : Robot) (np v : ℝ), r.odom_state = Side.kRight →
      ((odom_update r Side.kLeft np v).x, (odom_update r Side.kLeft np v).y,
        (odom_update r Side.kLeft np v).theta) =
      spec_pose_step r.x r.y r.theta
        (s16p16_to_double np - s16p16_to_double r.odom_curr_left)
        (s16p16_to_double r.odom_curr_right - s16p16_to_double r.odom_last_right)
        r.wheel_circum r.robot_radius)
  ∧ (∀ c rr v1 v2 : ℝ,
      (odom_update (odom_update (scenario_start c rr) Side.kLeft 65536 v1)
        Side.kRight 65536 v2).x = c ∧
      (odom_update (odom_update (scenario_start c rr) Side.kLeft 65536 v1)
        Side.kRight 65536 v2).y = 0 ∧
      (odom_update (odom_update (scenario_start c rr) Side.kLeft 65536 v1)
        Side.kRight 65536 v2).theta = 0) := by
  refine ⟨?_, ?_, ?_⟩
  · intro r np v h
    simp [odom_update, spec_pose_step, h]
  · intro r np v h
    simp [odom_update, spec_pose_step, h]
  · intro c rr v1 v2
    refine ⟨?_, ?_, ?_⟩ <;>
    · norm_num [odom_update, scenario_start, s16p16_to_double,
        Real.cos_zero, Real.sin_zero, normalize_angle_zero]
      rw [if_neg (fun hcon => Side.noConfusion hcon),
        if_neg (fun hcon => Side.noConfusion hcon)]

/-- Concrete instantiation of odom_fusion_formulas at a robot with a
pending left sample of one revolution. -/
theorem odom_fusion_formulas_witness :
    pending_left_robot.odom_state = Side.kLeft ∧
    ((odom_update pending_left_robot Side.kRight 0 0).x,
      (odom_update pending_left_robot Side.kRight 0 0).y,
      (odom_update pending_left_robot Side.kRight 0 0).theta) =
    spec_pose_step pending_left_robot.x pending_left_robot.y
      pending_left_robot.theta
      (s16p16_to_double pending_left_robot.odom_curr_left -
        s16p16_to_double pending_left_robot.odom_last_left)
      (s16p16_to_double 0 - s16p16_to_double pending_left_robot.odom_curr_right)
      pending_left_robot.wheel_circum pending_left_robot.robot_radius :=
  ⟨rfl, odom_fusion_formulas.1 pending_left_robot 0 0 rfl⟩

/-- Claim C4: the pose is recomputed only when the arriving sample's side
differs from the recorded pending side.  A first-of-pair sample leaves the
pose untouched and records its side; a sample for the side already pending
leaves the pose untouched, overwrites the earlier pending sample, and
raises a warning (never fatal); a sample completing the pair resets the
pending state and publishes the freshly fused pose. -/
theorem odom_pair_discipline (r : Robot) (side : Side) (np v : ℝ) :
    (r.odom_state = Side.kNone →
      (odom_update r side np v).x = r.x ∧
      (odom_update r side np v).y = r.y ∧
      (odom_update r side np v).theta = r.theta ∧
      (odom_update r side np v).odom_state = side ∧
      (odom_update r side np v).warnings = r.warnings ∧
      (odom_update r side np v).published = r.published)
  ∧ (r.odom_state = side → side ≠ Side.kNone →
      (odom_update r side np v).x = r.x ∧
      (odom_update r side np v).y = r.y ∧
      (odom_update r side np v).theta = r.theta ∧
      (odom_update r side np v).odom_state = r.odom_state ∧
      (odom_update r side np v).warnings = r.warnings + 1 ∧
      (odom_update r side np v).published = r.published ∧
      (side = Side.kLeft →
        (odom_update r side np v).odom_curr_left = np ∧
        (odom_update r side np v).odom_last_left = r.odom_curr_left) ∧
      (side = Side.kRight →
        (odom_update r side np v).odom_curr_right = np ∧
        (odom_update r side np v).odom_last_right = r.odom_curr_right))
  ∧ (r.odom_state ≠ Side.kNone → r.odom_state ≠ side →
      (odom_update r side np v).odom_state = Side.kNone ∧
      (odom_update r side np v).warnings = r.warnings ∧
      (odom_update r side np v).published =
        some ((odom_update r side np v).x, (odom_update r side np v).y,
          (odom_update r side np v).theta,
          ((odom_update r side np v).velocity_right +
            (odom_update r side np v).velocity_left) / 2,
          ((odom_update r side np v).velocity_right -
            (odom_update r side np v).velocity_left) /
            (2 * r.robot_radius))) := by
  refine ⟨?_, ?_, ?_⟩
  · intro h
    cases side <;> simp [odom_update, h]
  · intro h1 h2
    cases side
    · exact absurd rfl h2
    · simp [odom_update, h1]
    · simp [odom_update, h1]
  · intro h1 h2
    cases side <;> rcases hs : r.odom_state with _ | _ | _ <;> simp_all [odom_update]

/-- Concrete instantiation of odom_pair_discipline: a second left sample
while a left sample is already pending is dropped with a warning and the
pose is unchanged. -/
theorem odom_pair_discipline_witness :
    pending_left_robot.odom_state = Side.kLeft ∧
    Side.kLeft ≠ Side.kNone ∧
    (odom_update pending_left_robot Side.kLeft 7 0).warnings =
      pending_left_robot.warnings + 1 ∧
    (odom_update pending_left_robot Side.kLeft 7 0).x = pending_left_robot.x :=
  ⟨rfl, by decide,
    ((odom_pair_discipline pending_left_robot Side.kLeft 7 0).2.1 rfl
      (by decide)).2.2.2.2.1,
    ((odom_pair_discipline pending_left_robot Side.kLeft 7 0).2.1 rfl
      (by decide)).1⟩

end DiffDrive

namespace DiffDrive

/-- Claim C1, amended: the per-wheel delta used for pose integration in
DiffDriveRobot::odom_update is always the raw difference of the two
converted samples, current − last; no wraparound detection or correction
is applied, for any sample values — also when the raw delta magnitude
exceeds half the representable s16.16 range. -/
theorem odom_delta_uncorrected (r : Robot) (np v : ℝ)
    (h : r.odom_state = Side.kLeft) :
    (odom_update r Side.kRight np v).x =
      r.x + ((odom_delta_revs r.odom_curr_left r.odom_last_left *
          r.wheel_circum +
        odom_delta_revs np r.odom_curr_right * r.wheel_circum) / 2) *
        Real.cos r.theta
  ∧ (odom_update r Side.kRight np v).theta =
      normalize_angle (r.theta +
        (odom_delta_revs r.odom_curr_left r.odom_last_left * r.wheel_circum -
          odom_delta_revs np r.odom_curr_right * r.wheel_circum) /
          (2 * r.robot_radius)) := by
  constructor <;> simp [odom_update, odom_delta_revs, h]

/-- Concrete instantiation of odom_delta_uncorrected at wrap_robot. -/
theorem odom_delta_uncorrected_witness :
    wrap_robot.odom_state = Side.kLeft ∧
    (odom_update wrap_robot Side.kRight 0 0).x =
      wrap_robot.x + ((odom_delta_revs wrap_robot.odom_curr_left
          wrap_robot.odom_last_left * wrap_robot.wheel_circum +
        odom_delta_revs 0 wrap_robot.odom_curr_right *
          wrap_robot.wheel_circum) / 2) * Real.cos wrap_robot.theta :=
  ⟨rfl, (odom_delta_uncorrected wrap_robot 0 0 rfl).1⟩

/-- Counterexample to claim C1: for the pending left pair of wrap_robot the
raw delta is 65534 revolutions, whose magnitude exceeds half the
representable range (32768 revolutions), so the claim requires the
wrap-corrected delta 65534 − 65536 = −2 to be used; but the fused pose
advances x by 65534/2 = 32767 (circumference 1, heading 0, right wheel
delta 0), which is the raw delta, not the wrap-corrected −1 =
(65534 − 65536)/2 that the claim demands. -/
theorem odom_wraparound_counterexample :
    32768 < |odom_delta_revs 2147418112 (-2147418112)|
  ∧ odom_delta_revs 2147418112 (-2147418112) = 65534
  ∧ (odom_update wrap_robot Side.kRight 0 0).x = 32767
  ∧ (odom_update wrap_robot Side.kRight 0 0).x ≠ (65534 - 65536) / 2 := by
  have hd : odom_delta_revs 2147418112 (-2147418112) = (65534 : ℝ) := by
    norm_num [odom_delta_revs, s16p16_to_double]
  have hx : (odom_update wrap_robot Side.kRight 0 0).x = 32767 := by
    norm_num [odom_update, wrap_robot, s16p16_to_double, Real.cos_zero]
    rw [if_neg (fun hcon => Side.noConfusion hcon),
      if_neg (fun hcon => Side.noConfusion hcon)]
  refine ⟨?_, hd, hx, ?_⟩
  · rw [hd]
    norm_num
  · rw [hx]
    norm_num

end DiffDrive

namespace Framing

/-- One escaped logical byte consumed mid-packet advances the decoder by
exactly that literal byte. -/
theorem decode_from_step (L : Nat) (p tail : List Nat) (b : Nat)
    (hlen : p.length + 1 ≠ L) :
    decode_from ⟨.payload, p, L, false⟩ (escape_byte b ++ tail) =
      decode_from ⟨.payload, p ++ [b], L, false⟩ tail := by
  by_cases hS : b = kSOF
  · subst hS
    simp [escape_byte, decode_from, recv_byte, payload_push, kSOF, kESC,
      kSOFESC, kESCESC, hlen]
  · by_cases hE : b = kESC
    · subst hE
      simp [escape_byte, decode_from, recv_byte, payload_push, kSOF, kESC,
        kSOFESC, kESCESC, hlen]
    · simp [escape_byte, hS, hE, decode_from, recv_byte, payload_push, hlen]

/-- One escaped logical byte that completes the packet emits the decoded
message. -/
theorem decode_from_step_done (L : Nat) (p tail : List Nat) (b : Nat)
    (hlen : p.length + 1 = L) :
    decode_from ⟨.payload, p, L, false⟩ (escape_byte b ++ tail) =
      some (unpack_packet (p ++ [b])) := by
  by_cases hS : b = kSOF
  · subst hS
    simp [escape_byte, decode_from, recv_byte, payload_push, kSOF, kESC,
      kSOFESC, kESCESC, hlen]
  · by_cases hE : b = kESC
    · subst hE
      simp [escape_byte, decode_from, recv_byte, payload_push, kSOF, kESC,
        kSOFESC, kESCESC, hlen]
    · simp [escape_byte, hS, hE, decode_from, recv_byte, payload_push, hlen]

/-- Consuming the escaped encoding of a byte sequence that does not yet
complete the packet appends it to the packet. -/
theorem decode_from_extend (L : Nat) :
    ∀ (bs p rest : List Nat), p.length + bs.length < L →
      decode_from ⟨.payload, p, L, false⟩ (encode_bytes bs ++ rest) =
        decode_from ⟨.payload, p ++ bs, L, false⟩ rest := by
  intro bs
  induction bs with
  | nil =>
      intro p rest h
      simp [encode_bytes]
  | cons b bs ih =>
      intro p rest h
      simp only [List.length_cons] at h
      have h1 : p.length + 1 ≠ L := by omega
      have e1 : encode_bytes (b :: bs) ++ rest =
          escape_byte b ++ (encode_bytes bs ++ rest) := by
        simp [encode_bytes]
      rw [e1, decode_from_step L p _ b h1,
        ih (p ++ [b]) rest (by simp; omega)]
      have e2 : (p ++ [b]) ++ bs = p ++ b :: bs := by simp
      rw [e2]

/-- Consuming the escaped encoding of the byte sequence that exactly
completes the packet emits the message decoded from the full packet. -/
theorem decode_from_finish (L : Nat) :
    ∀ (bs p rest : List Nat), bs ≠ [] → p.length + bs.length = L →
      decode_from ⟨.payload, p, L, false⟩ (encode_bytes bs ++ rest) =
        some (unpack_packet (p ++ bs)) := by
  intro bs
  induction bs with
  | nil =>
      intro p rest hne h
      exact absurd rfl hne
  | cons b bs ih =>
      intro p rest hne h
      simp only [List.length_cons] at h
      have e1 : encode_bytes (b :: bs) ++ rest =
          escape_byte b ++ (encode_bytes bs ++ rest) := by
        simp [encode_bytes]
      rcases bs with _ | ⟨b2, bs2⟩
      · have hL : p.length + 1 = L := by simp at h; omega
        have e0 : encode_bytes ([] : List Nat) ++ rest = rest := by
          simp [encode_bytes]
        rw [e1, e0, decode_from_step_done L p rest b hL]
      · have h1 : p.length + 1 ≠ L := by simp at h; omega
        rw [e1, decode_from_step L p _ b h1,
          ih (p ++ [b]) rest (by simp) (by simp at h ⊢; omega)]
        have e2 : (p ++ [b]) ++ (b2 :: bs2) = p ++ b :: b2 :: bs2 := by simp
        rw [e2]

/-- Claim C8: for every message with identifier in the valid 29-bit range
and payload length between 0 and 8, decoding the framing codec's encoding
of the message yields the message back, including when the payload
contains literal kSOF and kESC byte values at any position. -/
theorem framing_roundtrip (m : CANMessage) (hid : m.id < 2 ^ 29)
    (hlen : m.payload.length ≤ 8) :
    decode (encode m) = some m := by
  obtain ⟨id, payload⟩ := m
  replace hid : id < 2 ^ 29 := hid
  replace hlen : payload.length ≤ 8 := hlen
  have hid2 : id < 536870912 := by simpa using hid
  have hrange : 4 ≤ 4 + payload.length ∧ 4 + payload.length ≤ 12 := by omega
  have hstart :
      decode (encode ⟨id, payload⟩) =
        decode_from ⟨.payload, [], 4 + payload.length, false⟩
          (encode_bytes (id_to_bytes id ++ payload)) := by
    simp [decode, encode, decode_from, recv_byte, initial_state, hrange]
  have hfin := decode_from_finish (4 + payload.length)
    (id_to_bytes id ++ payload) [] [] (by simp [id_to_bytes])
    (by simp [id_to_bytes]; omega)
  simp only [List.append_nil, List.nil_append] at hfin
  rw [hstart, hfin]
  simp only [unpack_packet, id_to_bytes, List.cons_append, bytes_to_id,
    Option.some.injEq, CANMessage.mk.injEq]
  constructor
  · have e2 : (256 : Nat) ^ 2 = 65536 := by norm_num
    have e3 : (256 : Nat) ^ 3 = 16777216 := by norm_num
    rw [e2, e3]
    omega
  · simp

/-- Concrete instantiation of framing_roundtrip: a message whose payload
contains the literal kSOF and kESC byte values round-trips. -/
theorem framing_roundtrip_witness :
    ((CANMessage.mk 4660 [255, 254, 7]).id < 2 ^ 29 ∧
      (CANMessage.mk 4660 [255, 254, 7]).payload.length ≤ 8) ∧
    decode (encode ⟨4660, [255, 254, 7]⟩) = some ⟨4660, [255, 254, 7]⟩ :=
  ⟨⟨by decide, by decide⟩,
    framing_roundtrip ⟨4660, [255, 254, 7]⟩ (by decide) (by decide)⟩

end Framing
